import Mathlib

namespace RecordScreen

/-- ASCII whitespace test, modelling the whitespace trimmed by Rust's
`str::trim` family on the telemetry lines (which are ASCII). -/
def isWs (c : Char) : Bool :=
  c = ' ' || c = '\t' || c = '\n' || c = '\r'

/-- Drops leading whitespace, modelling `str::trim_start`. -/
def trimLeftL : List Char → List Char
  | [] => []
  | c :: r => if isWs c then trimLeftL r else c :: r

/-- Drops trailing whitespace, modelling `str::trim_end`. -/
def trimRightL (l : List Char) : List Char :=
  (trimLeftL l.reverse).reverse

/-- Drops whitespace on both sides, modelling `str::trim`. -/
def trimL (l : List Char) : List Char :=
  trimRightL (trimLeftL l)

/-- Splits a list at the first occurrence of `sep`; `none` when `sep` is
absent. Models `str::splitn(2, sep)` yielding its two pieces. -/
def splitFirst (sep : Char) : List Char → Option (List Char × List Char)
  | [] => none
  | c :: r =>
    if c = sep then some ([], r)
    else
      match splitFirst sep r with
      | none => none
      | some (k, v) => some (c :: k, v)

/-- Value of a digit string. -/
def digitsVal (l : List Char) : Nat :=
  l.foldl (fun a c => a * 10 + (c.toNat - 48)) 0

/-- Models Rust `str::parse::<u64>`: an optional leading plus sign followed by
at least one decimal digit; anything else fails, as does a value exceeding the
64-bit range. -/
def parseU64 (s : String) : Option Nat :=
  let l := match s.data with
    | '+' :: r => r
    | r => r
  if l ≠ [] ∧ l.all Char.isDigit then
    let n := digitsVal l
    if n < 2 ^ 64 then some n else none
  else none

/-- Exact decimal value `mant / 10 ^ scale`, the result of parsing a plain
decimal literal: the mathematical value a Rust `f64` parse denotes. The
unreduced pair is a faithful carrier because no claim compares two different
spellings of one value. -/
structure Dec where
  mant : Int
  scale : Nat
deriving DecidableEq

/-- The rational number a `Dec` denotes. -/
def Dec.toRat (d : Dec) : Rat :=
  (d.mant : Rat) / (10 : Rat) ^ d.scale

/-- Models Rust `str::parse::<f64>` on the plain decimal literals the encoder
telemetry carries (optional sign, digits, optional fractional part), keeping
the exact decimal value. Exponent/infinity/nan forms are outside the model
and rejected; no claim depends on them. -/
def parseF64 (s : String) : Option Dec :=
  let p : Int × List Char := match s.data with
    | '-' :: r => (-1, r)
    | '+' :: r => (1, r)
    | r => (1, r)
  match splitFirst '.' p.2 with
  | none =>
    if p.2 ≠ [] ∧ p.2.all Char.isDigit then some ⟨p.1 * (digitsVal p.2 : Int), 0⟩
    else none
  | some (a, b) =>
    if (a ≠ [] ∨ b ≠ []) ∧ a.all Char.isDigit ∧ b.all Char.isDigit then
      some ⟨p.1 * ((digitsVal a : Int) * 10 ^ b.length + (digitsVal b : Int)), b.length⟩
    else none

/-- Models the byte slice `&value[..value.len() - 1]` at runner.rs:219. On an
empty value the index computation underflows and the slice panics; on a value
whose final character is not a single UTF-8 byte the slice boundary falls
inside a character and also panics. `none` models the panic. -/
def stripLastByte (value : String) : Option String :=
  match value.data.getLast? with
  | none => none
  | some c => if c.toNat < 128 then some ⟨value.data.dropLast⟩ else none

/-- Status from runner.rs:100-114; its `Default` is `Continue`. -/
inductive Status
  | Continue
  | End
deriving DecidableEq

/-- Progress from runner.rs:33-58. `out_time` is kept as the microsecond count
handed to `Duration::from_micros`; the float fields are kept as exact decimal
values. -/
structure Progress where
  frame : Option Nat := none
  fps : Option Dec := none
  total_size : Option Nat := none
  out_time : Option Nat := none
  dup_frames : Option Nat := none
  drop_frames : Option Nat := none
  speed : Option Dec := none
  status : Status := .Continue
deriving DecidableEq

/-- `Progress::default()`: every field unset, status `Continue`. -/
def Progress.empty : Progress := {}

/-- Error from runner.rs:127-150, payloads reduced to the offending text (the
wrapped io/parse sources carry nothing the claims need). -/
inductive Error
  | ioError
  | keyValueParseError (line : String)
  | unknownStatusError (status : String)
  | otherParseError (literal : String)
deriving DecidableEq

/-- One item of the `Result<Progress>` progress channel. -/
inductive Item
  | ok (p : Progress)
  | error (e : Error)
deriving DecidableEq

/-- The unbounded mpsc channel as the receiver observes it: the items actually
delivered, and whether `close_channel` has been called. -/
structure Channel where
  sent : List Item := []
  closed : Bool := false
deriving DecidableEq

/-- An awaited `send`/`feed` on the unbounded channel: it delivers the item
when the channel is open and fails, delivering nothing, when it is closed (the
code ignores the failure, at most re-closing the channel). A `send`/`feed`
whose future is dropped without being awaited delivers nothing at all and is
modelled by not calling this. -/
def Channel.sendAwait (ch : Channel) (x : Item) : Channel :=
  if ch.closed then ch else { sent := ch.sent ++ [x], closed := ch.closed }

/-- Models `close_channel`. -/
def Channel.close (ch : Channel) : Channel :=
  { ch with closed := true }

/-- parse_line from runner.rs:266-278: trim the line, split at the first `=`,
trim the end of the key and the start of the value. -/
def parse_line (line : String) : Option (String × String) :=
  match splitFirst '=' (trimL line.data) with
  | none => none
  | some (k, v) => some (⟨trimRightL k⟩, ⟨trimLeftL v⟩)

/-- handle_parse_error from runner.rs:280-290: awaited send of the typed parse
error, then `close_channel`. -/
def handle_parse_error (ch : Channel) (literal : String) : Channel :=
  (ch.sendAwait (.error (.otherParseError literal))).close

/-- The key dispatch of the reader task, runner.rs:192-251 (the arms of
`match key`). `none` models a panic of the task; only the `speed` slice can
panic. In the `progress` arm with an unrecognized value, the `feed` of the
unknown-status error at runner.rs:233 is a future that is dropped without
being awaited, so it delivers nothing; the channel is then closed, after which
the awaited `feed` of the record at runner.rs:240 fails, so the record is not
delivered either; the accumulator is still reset at runner.rs:248. -/
def dispatchKey (key value : String) (acc : Progress) (ch : Channel) :
    Option (Progress × Channel) :=
  if key = "frame" then
    match parseU64 value with
    | some x => some ({ acc with frame := some x }, ch)
    | none => some (acc, handle_parse_error ch value)
  else if key = "fps" then
    match parseF64 value with
    | some x => some ({ acc with fps := some x }, ch)
    | none => some (acc, handle_parse_error ch value)
  else if key = "total_size" then
    match parseU64 value with
    | some x => some ({ acc with total_size := some x }, ch)
    | none => some (acc, handle_parse_error ch value)
  else if key = "out_time_us" then
    match parseU64 value with
    | some us => some ({ acc with out_time := some us }, ch)
    | none => some (acc, handle_parse_error ch value)
  else if key = "dup_frames" then
    match parseU64 value with
    | some x => some ({ acc with dup_frames := some x }, ch)
    | none => some (acc, handle_parse_error ch value)
  else if key = "drop_frames" then
    match parseU64 value with
    | some x => some ({ acc with drop_frames := some x }, ch)
    | none => some (acc, handle_parse_error ch value)
  else if key = "speed" then
    match stripLastByte value with
    | none => none
    | some num =>
      match parseF64 num with
      | some x => some ({ acc with speed := some x }, ch)
      | none => some (acc, handle_parse_error ch num)
  else if key = "progress" then
    if value = "continue" then
      some (Progress.empty, ch.sendAwait (.ok { acc with status := .Continue }))
    else if value = "end" then
      some (Progress.empty, ch.sendAwait (.ok { acc with status := .End }))
    else
      some (Progress.empty, ch.close)
  else
    some (acc, ch)

/-- One iteration's line handling, runner.rs:191-255: parse the line and
dispatch the key=value pair. On a line without `=`, the send of the
key=value error at runner.rs:253 is a future that is dropped without being
awaited, so nothing is delivered and the channel is merely closed. -/
def processLine (line : String) (acc : Progress) (ch : Channel) :
    Option (Progress × Channel) :=
  match parse_line line with
  | some (key, value) => dispatchKey key value acc ch
  | none => some (acc, ch.close)

/-- One result of `reader.read_line` at runner.rs:176: a line of text (with
its newline; a positive byte count), a zero-byte read (end of stream), or an
I/O failure, after which the line buffer is empty. -/
inductive ReadEvent
  | line (s : String)
  | eof
  | err
deriving DecidableEq

/-- How the reader task left off on the modelled reads. -/
inductive Outcome
  | finished
  | panicked
  | blocked
deriving DecidableEq

/-- Final channel contents and the way the reader task ended. -/
structure RunResult where
  channel : Channel
  outcome : Outcome
deriving DecidableEq

/-- The reader-task loop of FfmpegBuilder::run, runner.rs:174-256, over a
finite list of modelled reads. A zero-byte read closes the channel and breaks
the loop; a failed read delivers the I/O error, closes the channel, falls
through to process its (empty) line buffer and keeps looping; `blocked`
stands for the task still awaiting a further read once the modelled reads are
exhausted. -/
def runLoop : List ReadEvent → Progress → Channel → RunResult
  | [], _, ch => ⟨ch, .blocked⟩
  | .eof :: _, _, ch => ⟨ch.close, .finished⟩
  | .err :: rest, acc, ch =>
    match processLine "" acc ((ch.sendAwait (.error .ioError)).close) with
    | none => ⟨(ch.sendAwait (.error .ioError)).close, .panicked⟩
    | some (acc2, ch2) => runLoop rest acc2 ch2
  | .line s :: rest, acc, ch =>
    match processLine s acc ch with
    | none => ⟨ch, .panicked⟩
    | some (acc2, ch2) => runLoop rest acc2 ch2

/-- Fuel-indexed core of `str::replace(".mp4", ".compressed.mp4")`: scan left
to right, replacing each non-overlapping occurrence. Fuel at least the length
of the list makes the fuel-exhausted arm unreachable. -/
def replaceMp4Aux : Nat → List Char → List Char
  | 0, l => l
  | _ + 1, [] => []
  | fuel + 1, c :: rest =>
    if ".mp4".data <+: (c :: rest) then
      ".compressed.mp4".data ++ replaceMp4Aux fuel (rest.drop 3)
    else
      c :: replaceMp4Aux fuel rest

/-- `str::replace(".mp4", ".compressed.mp4")` on a character list. -/
def replaceMp4 (l : List Char) : List Char :=
  replaceMp4Aux l.length l

/-- The compression output path computed at service.rs:124:
`input.replace(".mp4", ".compressed.mp4")` — every occurrence of `.mp4` is
replaced, not only the final extension. -/
def compressedOutput (input : String) : String :=
  ⟨replaceMp4 input.data⟩

/-- RecordingState from service.rs:10-32. -/
inductive RecordingState
  | Waiting
  | Started (progress : Option Progress) (process_id : Nat) (file : String)
  | Stopping (process_id : Nat) (file : String)
  | Compressing (process_id : Nat) (input : String) (output : String)
  | Done (file : String)
deriving DecidableEq

/-- RecordingOptions from service.rs:47-51. -/
structure RecordingOptions where
  audio : Bool
deriving DecidableEq

/-- The externally supplied facts of one start/stop run: the pid the spawned
encoder process reports. The model covers the runs in which the spawn itself
succeeds (the code unwraps a failed spawn into a task panic before any state
transition). -/
structure SpawnEnv where
  pid : Nat
deriving DecidableEq

/-- The observable effects of start/stop on the outside world and on the
shared state, listed in program order. -/
inductive Action
  | spawnCapture (audio : Bool) (out : String)
  | spawnCompress (input : String) (output : String)
  | setState (s : RecordingState)
  | signalInterrupt (pid : Nat)
  | waitPid (pid : Nat)
  | drainProgress
  | removeFile (f : String)
deriving DecidableEq

/-- The body of start, service.rs:61-110, run once the precondition check has
passed: spawn the capture encoder, publish Started when the reported pid is
positive, drain the progress channel, return Ok. `out` stands for the
timestamp-derived output path computed at service.rs:61-66. -/
def startGo (opt : RecordingOptions) (out : String) (env : SpawnEnv) :
    List Action × Except String Unit :=
  ([Action.spawnCapture opt.audio out] ++
    (if env.pid > 0 then [Action.setState (.Started none env.pid out)] else []) ++
    [Action.drainProgress], .ok ())

/-- start from service.rs:54-111: the state precondition at service.rs:55-60,
then the body. -/
def start (st : RecordingState) (opt : RecordingOptions) (out : String)
    (env : SpawnEnv) : List Action × Except String Unit :=
  match st with
  | .Done _ => startGo opt out env
  | .Waiting => startGo opt out env
  | _ => ([], .error "not ready to start")

/-- stop from service.rs:114-177: bail unless Started; compute the compressed
output path; publish Stopping; send SIGINT to the capture pid; waitpid it;
spawn the compression encoder; publish Compressing; drain its progress;
publish Done; best-effort delete of the capture file. -/
def stop (st : RecordingState) (env : SpawnEnv) :
    List Action × Except String Unit :=
  match st with
  | .Started _ pid file =>
    ([Action.setState (.Stopping pid file),
      Action.signalInterrupt pid,
      Action.waitPid pid,
      Action.spawnCompress file (compressedOutput file),
      Action.setState (.Compressing env.pid file (compressedOutput file)),
      Action.drainProgress,
      Action.setState (.Done (compressedOutput file)),
      Action.removeFile file], .ok ())
  | _ => ([], .error "not started")

theorem replaceMp4Aux_nil (fuel : Nat) : replaceMp4Aux fuel [] = [] := by
  cases fuel <;> rfl

theorem mp4_data : ".mp4".data = ['.', 'm', 'p', '4'] := rfl

/-- Core of the amended C8: when the final `.mp4` is the only occurrence of
`.mp4` in the path, replacing every occurrence coincides with replacing just
the suffix. -/
theorem replaceMp4Aux_unique_suffix (base : List Char) :
    ∀ fuel, base.length + 1 ≤ fuel →
    (∀ i, i < base.length → ¬ (".mp4".data <+: (base ++ ".mp4".data).drop i)) →
    replaceMp4Aux fuel (base ++ ".mp4".data) = base ++ ".compressed.mp4".data := by
  induction base with
  | nil =>
    intro fuel hf _
    cases fuel with
    | zero => omega
    | succ f =>
      rw [List.nil_append, List.nil_append, mp4_data]
      show replaceMp4Aux (f + 1) ('.' :: ['m', 'p', '4']) = ".compressed.mp4".data
      simp only [replaceMp4Aux]
      rw [if_pos (by decide)]
      simp [replaceMp4Aux_nil]
  | cons c b ih =>
    intro fuel hf h
    cases fuel with
    | zero =>
      rw [List.length_cons] at hf
      omega
    | succ f =>
      have h0 : ¬ (".mp4".data <+: (c :: (b ++ ".mp4".data))) := by
        have := h 0 (by simp)
        simpa using this
      rw [List.cons_append]
      simp only [replaceMp4Aux]
      rw [if_neg h0, List.cons_append]
      have hf2 : b.length + 1 ≤ f := by
        rw [List.length_cons] at hf
        omega
      refine congrArg (c :: ·) (ih f hf2 ?_)
      intro i hi
      have := h (i + 1) (by simpa using Nat.succ_lt_succ hi)
      simpa using this

/-- Claim C1: fed the byte stream `frame=10\nfps=25.0\nprogress=continue\n`
`frame=20\nprogress=end\n`, the channel yields exactly the record
{frame 10, fps 25.0, Continue} and then {frame 20, fps unset, End}; in
general a `progress=continue` or `progress=end` line delivers exactly one
record holding the accumulated fields with that status and resets the
accumulator to empty. -/
theorem C1_parser_end_to_end :
    runLoop [.line "frame=10\n", .line "fps=25.0\n", .line "progress=continue\n",
        .line "frame=20\n", .line "progress=end\n", .eof] Progress.empty ⟨[], false⟩ =
      ⟨⟨[.ok { frame := some 10, fps := some ⟨250, 1⟩, status := .Continue },
         .ok { frame := some 20, status := .End }], true⟩, .finished⟩ ∧
    Dec.toRat ⟨250, 1⟩ = 25 ∧
    (∀ acc ch, processLine "progress=continue\n" acc ch =
      some (Progress.empty, ch.sendAwait (.ok { acc with status := .Continue }))) ∧
    (∀ acc ch, processLine "progress=end\n" acc ch =
      some (Progress.empty, ch.sendAwait (.ok { acc with status := .End }))) := by
  refine ⟨by decide, by norm_num [Dec.toRat], fun acc ch => rfl, fun acc ch => rfl⟩

/-- Claim C2, evaluation at the failing input: on the stream
`frame=10\nfoo\nprogress=continue\n` followed by end of stream, the channel
is closed and delivers no item at all — in particular no "invalid key=value
pair" error is ever received, because the send future built at runner.rs:253
is dropped without being awaited; the record committed by the later
`progress=continue` is not received either. -/
theorem C2_dropped_error_eval :
    runLoop [.line "frame=10\n", .line "foo\n", .line "progress=continue\n", .eof]
      Progress.empty ⟨[], false⟩ = ⟨⟨[], true⟩, .finished⟩ := by
  decide

/-- Claim C3, counterexample: after the parser has emitted a record with
status End, a later `progress=continue` marker still emits a further record —
nothing closes the channel at an End record. -/
theorem C3_counterexample :
    runLoop [.line "progress=end\n", .line "frame=5\n", .line "progress=continue\n", .eof]
      Progress.empty ⟨[], false⟩ =
      ⟨⟨[.ok { status := .End },
         .ok { frame := some 5, status := .Continue }], true⟩, .finished⟩ := by
  decide

/-- Claim C3, amended: emitting an End record does not terminate the session;
the parser keeps reading and a later commit marker emits again. What does end
the session is the zero-byte read (end of stream): once it occurs the loop
closes the channel and breaks, so no further record is ever produced — and
the encoder protocol closes the stream right after `progress=end`. -/
theorem C3_amended :
    (∀ rest acc ch, runLoop (.line "progress=end\n" :: rest) acc ch =
      runLoop rest Progress.empty (ch.sendAwait (.ok { acc with status := .End }))) ∧
    (∀ rest acc ch, runLoop (.eof :: rest) acc ch = ⟨ch.close, .finished⟩) := by
  exact ⟨fun rest acc ch => rfl, fun rest acc ch => rfl⟩

/-- Claim C4, evaluation at the failing input: on
`frame=10\nprogress=bogus\n` the channel closes without delivering any item:
the unknown-status error feed at runner.rs:233 is a future dropped without
being awaited, and the best-effort record flush at runner.rs:240 runs only
after `close_channel`, so it fails. The mapping of the valid values
`continue` and `end` onto the two statuses does hold. -/
theorem C4_unknown_status_eval :
    runLoop [.line "frame=10\n", .line "progress=bogus\n", .eof]
      Progress.empty ⟨[], false⟩ = ⟨⟨[], true⟩, .finished⟩ ∧
    (∀ acc ch, dispatchKey "progress" "continue" acc ch =
      some (Progress.empty, ch.sendAwait (.ok { acc with status := .Continue }))) ∧
    (∀ acc ch, dispatchKey "progress" "end" acc ch =
      some (Progress.empty, ch.sendAwait (.ok { acc with status := .End }))) := by
  refine ⟨by decide, fun acc ch => rfl, fun acc ch => rfl⟩

/-- Claim C5: from Started, Stopping or Compressing, start returns the
precondition error with an empty effect trace — no encoder spawned, no state
written; from Waiting or Done the check passes and start runs its body. -/
theorem C5_start_precondition (opt : RecordingOptions) (out : String) (env : SpawnEnv) :
    (∀ p pid f, start (.Started p pid f) opt out env = ([], .error "not ready to start")) ∧
    (∀ pid f, start (.Stopping pid f) opt out env = ([], .error "not ready to start")) ∧
    (∀ pid i o, start (.Compressing pid i o) opt out env = ([], .error "not ready to start")) ∧
    (start .Waiting opt out env).2 = .ok () ∧
    (∀ f, (start (.Done f) opt out env).2 = .ok ()) := by
  exact ⟨fun _ _ _ => rfl, fun _ _ => rfl, fun _ _ _ => rfl, rfl, fun _ => rfl⟩

/-- Claim C6: from any state other than Started, stop returns the
precondition error with an empty effect trace — no signal sent, no process
spawned, no state written; from Started the check passes and stop runs. -/
theorem C6_stop_precondition (env : SpawnEnv) :
    stop .Waiting env = ([], .error "not started") ∧
    (∀ pid f, stop (.Stopping pid f) env = ([], .error "not started")) ∧
    (∀ pid i o, stop (.Compressing pid i o) env = ([], .error "not started")) ∧
    (∀ f, stop (.Done f) env = ([], .error "not started")) ∧
    (∀ p pid f, (stop (.Started p pid f) env).2 = .ok ()) := by
  exact ⟨rfl, fun _ _ => rfl, fun _ _ _ => rfl, fun _ => rfl, fun _ _ _ => rfl⟩

/-- Claim C7: a successful stop from Started performs, in this strict order:
publish Stopping, send the interrupt signal to the capture pid, block until
that pid is reaped, and only then spawn the compression encoder and publish
Compressing (then drain, publish Done, and delete the capture file). -/
theorem C7_stop_order (p : Option Progress) (pid : Nat) (f : String) (env : SpawnEnv) :
    stop (.Started p pid f) env =
      ([Action.setState (.Stopping pid f),
        Action.signalInterrupt pid,
        Action.waitPid pid,
        Action.spawnCompress f (compressedOutput f),
        Action.setState (.Compressing env.pid f (compressedOutput f)),
        Action.drainProgress,
        Action.setState (.Done (compressedOutput f)),
        Action.removeFile f], .ok ()) := rfl

/-- Claim C8, counterexample: the output path is computed with a global
substring replacement, so for the capture file `/tmp/a.mp4.mp4` every
occurrence of `.mp4` is replaced, not only the final extension — the result
differs from the suffix-only replacement the claim describes. -/
theorem C8_counterexample :
    compressedOutput "/tmp/a.mp4.mp4" = "/tmp/a.compressed.mp4.compressed.mp4" ∧
    compressedOutput "/tmp/a.mp4.mp4" ≠ "/tmp/a.mp4.compressed.mp4" := by
  decide

/-- Claim C8, amended: the output path is the capture path with every
occurrence of `.mp4` replaced by `.compressed.mp4`; whenever the final
`.mp4` suffix is the only occurrence in the path (as for the timestamped
paths start generates under a `.mp4`-free directory), this equals replacing
just the extension and leaves the rest of the path unchanged. -/
theorem C8_suffix_replace (base : String)
    (h : ∀ i, i < base.length → ¬ (".mp4".data <+: ((base.data ++ ".mp4".data).drop i))) :
    compressedOutput (base ++ ".mp4") = base ++ ".compressed.mp4" := by
  obtain ⟨bl⟩ := base
  have hdata : (String.mk bl ++ ".mp4").data = bl ++ ".mp4".data := rfl
  show (⟨replaceMp4 (String.mk bl ++ ".mp4").data⟩ : String) = _
  rw [hdata]
  unfold replaceMp4
  rw [replaceMp4Aux_unique_suffix bl _ (by simp [mp4_data]) (fun i hi => h i hi)]
  rfl

/-- Witness for C8_suffix_replace at a concrete timestamped capture path. -/
theorem C8_suffix_replace_witness :
    compressedOutput ("/home/user/Videos/2026-10-12T10-00" ++ ".mp4") =
      "/home/user/Videos/2026-10-12T10-00" ++ ".compressed.mp4" :=
  C8_suffix_replace "/home/user/Videos/2026-10-12T10-00" (by decide)

/-- Claim C9: on any line whose key is `speed` and whose value is empty after
trimming, the slice `&value[..value.len() - 1]` underflows and the parser
task panics instead of sending the typed numeric-parse error; concretely,
feeding `speed=\n` panics the task with nothing delivered on the channel. -/
theorem C9_speed_empty_panics :
    (∀ line acc ch, parse_line line = some ("speed", "") →
      processLine line acc ch = none) ∧
    runLoop [.line "speed=\n", .eof] Progress.empty ⟨[], false⟩ =
      ⟨⟨[], false⟩, .panicked⟩ := by
  refine ⟨fun line acc ch h => ?_, by decide⟩
  unfold processLine
  rw [h]
  rfl

/-- Witness for C9_speed_empty_panics: the hypothesis holds at the concrete
line `speed=\n` and the conclusion follows from the theorem. -/
theorem C9_speed_empty_panics_witness :
    processLine "speed=\n" Progress.empty ⟨[], false⟩ = none :=
  C9_speed_empty_panics.1 "speed=\n" Progress.empty ⟨[], false⟩ (by decide)

/-- Claim C10: the read loop breaks only at a zero-byte read. A failed read
delivers the I/O error and closes the channel but does not break: the
(empty) line buffer is processed as a protocol violation and the loop issues
further reads, as the concrete run with an error followed by more reads
shows; conversely a finished run always contains an end-of-stream read. -/
theorem C10_loop_exit :
    (∀ rest acc ch, runLoop (.err :: rest) acc ch =
      runLoop rest acc ((ch.sendAwait (.error .ioError)).close)) ∧
    runLoop [.err, .line "frame=1\n", .eof] Progress.empty ⟨[], false⟩ =
      ⟨⟨[.error .ioError], true⟩, .finished⟩ ∧
    (∀ events acc ch, (runLoop events acc ch).outcome = .finished →
      ReadEvent.eof ∈ events) := by
  refine ⟨fun rest acc ch => rfl, by decide, ?_⟩
  intro events
  induction events with
  | nil =>
    intro acc ch h
    simp [runLoop] at h
  | cons e rest ih =>
    intro acc ch h
    cases e with
    | eof => exact List.mem_cons_self _ _
    | err =>
      exact List.mem_cons_of_mem _ (ih acc ((ch.sendAwait (.error .ioError)).close.close) h)
    | line s =>
      cases hp : processLine s acc ch with
      | none =>
        have hx : (runLoop (.line s :: rest) acc ch).outcome = .panicked := by
          simp [runLoop, hp]
        rw [hx] at h
        cases h
      | some pr =>
        obtain ⟨acc2, ch2⟩ := pr
        have heq : runLoop (.line s :: rest) acc ch = runLoop rest acc2 ch2 := by
          simp [runLoop, hp]
        rw [heq] at h
        exact List.mem_cons_of_mem _ (ih acc2 ch2 h)

/-- Witness for C10_loop_exit: a run that finishes — here on the single read
returning zero bytes — indeed contains an end-of-stream read. -/
theorem C10_loop_exit_witness : ReadEvent.eof ∈ [ReadEvent.eof] :=
  C10_loop_exit.2.2 [ReadEvent.eof] Progress.empty ⟨[], false⟩ rfl

end RecordScreen
